import Mathlib

/-!
Verification of the multi-process communication and control layer of this
repository (vtkMPIController, vtkInformationVector, vtkRenderedAreaPicker)
against its design specification.  The controller and communicator method
bodies are not part of the given sources (only `vtkMPIController.h` with its
inline members is), so those operations are modelled from the spec, as marked
on each definition; the inline members of `vtkMPIController.h` and the whole
of `vtkRenderedAreaPicker.cxx` are embedded from the source directly.
-/

namespace VTKSpec

namespace Transport

/-- A (source, destination, tag) triple identifying one point-to-point
message stream of the transport. -/
structure Triple where
  src : Nat
  dst : Nat
  tag : Nat
deriving DecidableEq, Repr

/-- Modelled from the spec: the state of the underlying reliable ordered
transport (the layer assumed below `vtkMPICommunicator`, whose implementation
is not among the given sources).  Per triple it keeps the queue of messages
sent but not yet received (`inflight`), the full log of messages sent
(`sentLog`) and the log of messages received (`recvLog`), each in order. -/
structure TState where
  inflight : Triple → List Nat
  sentLog : Triple → List Nat
  recvLog : Triple → List Nat

/-- Pointwise update of a triple-indexed family of queues. -/
def update (f : Triple → List Nat) (t : Triple) (v : List Nat) : Triple → List Nat :=
  fun u => if u = t then v else f u

/-- The transport state before any traffic. -/
def TState.init : TState :=
  ⟨fun _ => [], fun _ => [], fun _ => []⟩

/-- Transport events: a blocking send of message `m` on triple `t`, or a
blocking receive on triple `t`. -/
inductive Ev where
  | send (t : Triple) (m : Nat)
  | recv (t : Triple)
deriving DecidableEq, Repr

/-- Modelled from the spec: one transport step.  A send appends to the
in-flight queue (and to the send log); a receive can only fire when a message
is in flight on its triple, and then consumes the oldest one (reliable,
ordered delivery).  A receive on an empty queue blocks: no step. -/
def step (s : TState) : Ev → Option TState
  | .send t m =>
    some { inflight := update s.inflight t (s.inflight t ++ [m])
           sentLog := update s.sentLog t (s.sentLog t ++ [m])
           recvLog := s.recvLog }
  | .recv t =>
    match s.inflight t with
    | [] => none
    | m :: rest =>
      some { inflight := update s.inflight t rest
             sentLog := s.sentLog
             recvLog := update s.recvLog t (s.recvLog t ++ [m]) }

/-- Run a list of transport events from a state. -/
def run (s : TState) : List Ev → Option TState
  | [] => some s
  | e :: es =>
    match step s e with
    | none => none
    | some s2 => run s2 es

/-- Queue invariant: on every triple, the send log is the receive log followed
by the in-flight queue. -/
def QueueInv (s : TState) : Prop :=
  ∀ t, s.sentLog t = s.recvLog t ++ s.inflight t

theorem init_queueInv : QueueInv TState.init := fun _ => rfl

theorem step_queueInv {s s2 : TState} {e : Ev} (h : QueueInv s)
    (hs : step s e = some s2) : QueueInv s2 := by
  cases e with
  | send t m =>
    simp only [step, Option.some.injEq] at hs
    subst hs
    intro u
    simp only [update]
    by_cases hu : u = t
    · subst hu
      simp [h u]
    · simp [hu, h u]
  | recv t =>
    simp only [step] at hs
    cases hq : s.inflight t with
    | nil => rw [hq] at hs; simp at hs
    | cons m rest =>
      rw [hq] at hs
      simp only [Option.some.injEq] at hs
      subst hs
      intro u
      simp only [update]
      by_cases hu : u = t
      · subst hu
        have := h u
        rw [hq] at this
        simp [this]
      · simp [hu, h u]

theorem run_queueInv {evs : List Ev} {s s2 : TState} (h : QueueInv s)
    (hs : run s evs = some s2) : QueueInv s2 := by
  induction evs generalizing s with
  | nil => simp only [run, Option.some.injEq] at hs; exact hs ▸ h
  | cons e es ih =>
    simp only [run] at hs
    cases he : step s e with
    | none => rw [he] at hs; simp at hs
    | some s1 =>
      rw [he] at hs
      exact ih (step_queueInv h he) hs

/-- A demonstration trace: two messages on the same triple, received in order. -/
def fifoDemoTrace : List Ev :=
  [Ev.send ⟨0, 1, 7⟩ 10, Ev.send ⟨0, 1, 7⟩ 20, Ev.recv ⟨0, 1, 7⟩, Ev.recv ⟨0, 1, 7⟩]

/-- The state the demonstration trace reaches. -/
def fifoDemoState : TState :=
  (run TState.init fifoDemoTrace).getD TState.init

end Transport

namespace Channel

/-- Modelled from the spec: blocking `Receive` into a buffer of capacity
`maxLength` (the `vtkMPICommunicator` receive implementation is not among the
given sources).  If the incoming message is longer than `maxLength` the call
fails (status 0) and leaves no defined buffer contents (`none`); otherwise it
succeeds (status 1) and the buffer holds the message. -/
def Receive (msg : List Nat) (maxLength : Nat) : Nat × Option (List Nat) :=
  if maxLength < msg.length then (0, none) else (1, some msg)

end Channel

namespace MPIController

/-- The observable state of the `vtkMPIController` class statics and of its
communicators.  `initialized` embeds the static `Initialized` flag
("Initialize only once", vtkMPIController.h); `useSsendForRMI` embeds the
static `int UseSsendForRMI`; `mpiStarted` records whether the low-level
transport start-up (MPI_Init) was performed by this layer; `worldContext` is
the context of the primary (world) communicator, `rmiContext` the context of
the static `WorldRMICommunicator`, and `nextContext` the supply of fresh
contexts handed out by communicator duplication. -/
structure CState where
  initialized : Bool
  mpiStarted : Bool
  useSsendForRMI : Int
  worldContext : Nat
  rmiContext : Option Nat
  nextContext : Nat
deriving DecidableEq, Repr

/-- The process state before any call: not initialized, transport not
started, `UseSsendForRMI` off (0) by default per vtkMPIController.h, the
world communicator holding context 0 and context 1 the next fresh one. -/
def initialCState : CState :=
  { initialized := false
    mpiStarted := false
    useSsendForRMI := 0
    worldContext := 0
    rmiContext := none
    nextContext := 1 }

/-- Modelled from the spec: `InitializeRMICommunicator` (declared at
vtkMPIController.h but implemented outside the given sources) duplicates the
current communicator into `WorldRMICommunicator`; per the header comment the
duplicate "uses a new context", so it takes the next fresh context. -/
def InitializeRMICommunicator (s : CState) : CState :=
  { s with rmiContext := some s.nextContext, nextContext := s.nextContext + 1 }

/-- Modelled from the spec: `Initialize` (implementation outside the given
sources).  "Calling it more than once will have no effect"; otherwise, when
`externallyOwned` is true the low-level transport start-up is skipped (a
collaborator already started it) but the private RMI communicator is still
derived; either way the one-time `Initialized` flag is set. -/
def Initialize (externallyOwned : Bool) (s : CState) : CState :=
  if s.initialized then s
  else
    let s1 := if externallyOwned then s else { s with mpiStarted := true }
    let s2 := InitializeRMICommunicator s1
    { s2 with initialized := true }

/-- Embedded from vtkMPIController.h:
`UseSsendForRMI = (use_send != 0) ? 1 : 0`. -/
def SetUseSsendForRMI (useSend : Int) (s : CState) : CState :=
  { s with useSsendForRMI := if useSend ≠ 0 then 1 else 0 }

/-- Embedded from vtkMPIController.h: `return UseSsendForRMI`. -/
def GetUseSsendForRMI (s : CState) : Int :=
  s.useSsendForRMI

/-- Which MPI send primitive a control message goes out with. -/
inductive SendKind where
  | send
  | ssend
deriving DecidableEq, Repr

/-- The envelope a message is matched by: the communicator context it travels
on and its tag.  Two messages connect only when both components agree. -/
structure Envelope where
  ctx : Nat
  tag : Nat
deriving DecidableEq, Repr

/-- Envelope matching: a send is delivered to a receive exactly when context
and tag agree. -/
def envMatch (a b : Envelope) : Bool :=
  a.ctx == b.ctx && a.tag == b.tag

/-- Modelled from the spec: `TriggerRMIInternal` (declared at
vtkMPIController.h, implementation outside the given sources) sends the RMI
control message over `WorldRMICommunicator`, using `Ssend` instead of `Send`
when `UseSsendForRMI` is set.  It yields the send primitive used, and the
envelope of the control message when the RMI communicator exists. -/
def TriggerRMIInternal (s : CState) (rmiTag : Nat) : SendKind × Option Envelope :=
  ((if s.useSsendForRMI = 1 then SendKind.ssend else SendKind.send),
    s.rmiContext.map (fun c => ⟨c, rmiTag⟩))

/-- The envelope of a user-level message with tag `tag` on the primary
(world) communicator. -/
def userEnvelope (s : CState) (tag : Nat) : Envelope :=
  ⟨s.worldContext, tag⟩

/-- The controller operations reachability is taken over. -/
inductive Op where
  | init (externallyOwned : Bool)
  | setUseSsendForRMI (x : Int)
deriving DecidableEq, Repr

/-- Apply one controller operation. -/
def applyOp (s : CState) : Op → CState
  | .init b => Initialize b s
  | .setUseSsendForRMI x => SetUseSsendForRMI x s

/-- Apply a list of controller operations, oldest first. -/
def runOps (s : CState) : List Op → CState
  | [] => s
  | op :: ops => runOps (applyOp s op) ops

/-- Context invariant: the world context is below the fresh-context supply,
and the RMI context, once derived, differs from the world context and is
below the supply as well. -/
def CtxInv (s : CState) : Prop :=
  s.worldContext < s.nextContext ∧
    ∀ c, s.rmiContext = some c → c ≠ s.worldContext ∧ c < s.nextContext

theorem initial_ctxInv : CtxInv initialCState := by
  constructor
  · decide
  · intro c hc
    simp [initialCState] at hc

/-- Normal form of `Initialize`: the effect on every field, spelled out. -/
theorem Initialize_eq (b : Bool) (s : CState) :
    Initialize b s =
      if s.initialized then s
      else
        { initialized := true
          mpiStarted := if b then s.mpiStarted else true
          useSsendForRMI := s.useSsendForRMI
          worldContext := s.worldContext
          rmiContext := some s.nextContext
          nextContext := s.nextContext + 1 } := by
  unfold Initialize InitializeRMICommunicator
  cases b <;> by_cases hi : s.initialized <;> simp [hi]

theorem applyOp_ctxInv {s : CState} (h : CtxInv s) (op : Op) :
    CtxInv (applyOp s op) := by
  obtain ⟨hw, hr⟩ := h
  cases op with
  | init b =>
    simp only [applyOp, Initialize_eq]
    by_cases hi : s.initialized
    · rw [if_pos hi]
      exact ⟨hw, hr⟩
    · rw [if_neg hi]
      constructor
      · show s.worldContext < s.nextContext + 1
        omega
      · intro c hc
        have hcc : some s.nextContext = some c := hc
        have h2 : s.nextContext = c := by injection hcc
        constructor
        · show c ≠ s.worldContext
          omega
        · show c < s.nextContext + 1
          omega
  | setUseSsendForRMI x =>
    exact ⟨hw, hr⟩

theorem runOps_ctxInv {s : CState} (h : CtxInv s) (ops : List Op) :
    CtxInv (runOps s ops) := by
  induction ops generalizing s with
  | nil => exact h
  | cons op ops ih => exact ih (applyOp_ctxInv h op)

/-- Once initialized, the RMI communicator exists. -/
theorem runOps_rmi_isSome {s : CState} (hs : s.rmiContext.isSome ∨ s.initialized = false)
    (ops : List Op) (hinit : (runOps s ops).initialized = true) :
    (runOps s ops).rmiContext.isSome := by
  induction ops generalizing s with
  | nil =>
    cases hs with
    | inl h => exact h
    | inr h => simp only [runOps] at hinit; rw [hinit] at h; cases h
  | cons op ops ih =>
    refine ih ?_ hinit
    cases op with
    | init b =>
      by_cases hi : s.initialized
      · rcases hs with h | h
        · left
          simpa [applyOp, Initialize_eq, hi] using h
        · rw [hi] at h; cases h
      · left
        simp [applyOp, Initialize_eq, hi]
    | setUseSsendForRMI x =>
      simpa [applyOp, SetUseSsendForRMI] using hs

end MPIController

namespace Requests

/-- The states of a request handle per the spec's data model:
{PENDING, COMPLETE, CANCELLED}. -/
inductive ReqStatus where
  | PENDING
  | COMPLETE
  | CANCELLED
deriving DecidableEq, Repr

/-- Modelled from the spec: one outstanding non-blocking operation
(`vtkMPICommunicator::Request`, implementation outside the given sources).
`completeAt` is the transport time at which the underlying transfer finishes;
a cancelled request never completes. -/
structure Request where
  completeAt : Nat
  cancelled : Bool
deriving DecidableEq, Repr

/-- The status a request reports at transport time `now`. -/
def status (now : Nat) (r : Request) : ReqStatus :=
  if r.cancelled then ReqStatus.CANCELLED
  else if r.completeAt ≤ now then ReqStatus.COMPLETE
  else ReqStatus.PENDING

/-- Modelled from the spec: `TestAll` "returns true iff all of the
communication request objects are complete" (vtkMPIController.h); it is a
pure query, returning the unchanged request set alongside the answer. -/
def TestAll (now : Nat) (reqs : List Request) : Bool × List Request :=
  (reqs.all (fun r => decide (status now r = ReqStatus.COMPLETE)), reqs)

/-- Modelled from the spec: `WaitAll` "blocks until all requests are
complete" (vtkMPIController.h); modelled as returning the earliest transport
time at which every transfer in the set has finished. -/
def WaitAll (now : Nat) (reqs : List Request) : Nat :=
  reqs.foldl (fun acc r => max acc r.completeAt) now

/-- The first complete index of the list in polling (array) order. -/
def firstCompleteIdx (now : Nat) : List Request → Option Nat
  | [] => none
  | r :: rest =>
    if status now r = ReqStatus.COMPLETE then some 0
    else (firstCompleteIdx now rest).map (· + 1)

/-- Modelled from the spec: `WaitAny` "blocks until one of the requests
completes" and, when several are already complete at call time, returns the
deterministic choice recorded by the underlying completion mechanism:
the first complete one in polling (array) order.  `none` means no request is
complete yet, i.e. the call would keep blocking. -/
def WaitAny (now : Nat) (reqs : List Request) : Option Nat :=
  firstCompleteIdx now reqs

/-- The completion state of a request set at a transport time: which handles
report COMPLETE. -/
def completionVector (now : Nat) (reqs : List Request) : List Bool :=
  reqs.map (fun r => decide (status now r = ReqStatus.COMPLETE))

theorem init_le_foldl_max (l : List Request) (a : Nat) :
    a ≤ l.foldl (fun acc r => max acc r.completeAt) a := by
  induction l generalizing a with
  | nil => exact Nat.le_refl a
  | cons x rest ih => exact le_trans (Nat.le_max_left _ _) (ih _)

theorem mem_le_waitAll {r : Request} {l : List Request} {a : Nat} (h : r ∈ l) :
    r.completeAt ≤ l.foldl (fun acc r => max acc r.completeAt) a := by
  induction l generalizing a with
  | nil => cases h
  | cons x rest ih =>
    cases h with
    | head =>
      exact le_trans (Nat.le_max_right a r.completeAt) (init_le_foldl_max _ _)
    | tail _ hmem => exact ih hmem

theorem firstCompleteIdx_congr : ∀ {l1 l2 : List Request} {n1 n2 : Nat},
    completionVector n1 l1 = completionVector n2 l2 →
    firstCompleteIdx n1 l1 = firstCompleteIdx n2 l2
  | [], [], _, _, _ => rfl
  | [], _ :: _, _, _, h => by simp [completionVector] at h
  | _ :: _, [], _, _, h => by simp [completionVector] at h
  | r1 :: l1, r2 :: l2, n1, n2, h => by
    simp only [completionVector, List.map_cons, List.cons.injEq] at h
    obtain ⟨h1, h2⟩ := h
    have hrec := @firstCompleteIdx_congr l1 l2 n1 n2 h2
    have hiff := decide_eq_decide.mp h1
    simp only [firstCompleteIdx]
    by_cases hc : status n1 r1 = ReqStatus.COMPLETE
    · have hc2 : status n2 r2 = ReqStatus.COMPLETE := hiff.mp hc
      simp [hc, hc2]
    · have hc2 : ¬status n2 r2 = ReqStatus.COMPLETE := fun hcon => hc (hiff.mpr hcon)
      simp [hc, hc2, hrec]

theorem firstCompleteIdx_sound {now : Nat} : ∀ {l : List Request} {i : Nat},
    firstCompleteIdx now l = some i →
    ∃ r, l[i]? = some r ∧ status now r = ReqStatus.COMPLETE
  | [], _, h => by simp [firstCompleteIdx] at h
  | r :: rest, i, h => by
    simp only [firstCompleteIdx] at h
    by_cases hc : status now r = ReqStatus.COMPLETE
    · rw [if_pos hc] at h
      obtain rfl : (0 : Nat) = i := by injection h
      exact ⟨r, by simp, hc⟩
    · rw [if_neg hc] at h
      cases hrec : firstCompleteIdx now rest with
      | none => rw [hrec] at h; simp at h
      | some j =>
        rw [hrec] at h
        simp at h
        subst h
        obtain ⟨r2, hr2, hst⟩ := firstCompleteIdx_sound hrec
        exact ⟨r2, by simpa using hr2, hst⟩

end Requests

namespace Partition

/-- One rank's contribution to `PartitionController`: its original rank in
the parent group and the (color, key) pair it supplies. -/
structure RankEntry where
  rank : Nat
  color : Int
  key : Int
deriving DecidableEq, Repr

/-- The member ordering inside one partition: ascending key, ties broken by
original rank. -/
def keyOrder (a b : RankEntry) : Prop :=
  a.key < b.key ∨ (a.key = b.key ∧ a.rank ≤ b.rank)

instance : DecidableRel keyOrder := fun a b => by
  unfold keyOrder
  infer_instance

instance : IsTotal RankEntry keyOrder := ⟨by
  intro a b
  unfold keyOrder
  omega⟩

instance : IsTrans RankEntry keyOrder := ⟨by
  intro a b c
  unfold keyOrder
  omega⟩

/-- Modelled from the spec: the member list of the sub-controller that
`PartitionController` (declared in vtkMPIController.h, implementation outside
the given sources) produces for color `c`: the ranks that supplied color `c`,
ordered by ascending key with ties broken by original rank. -/
def PartitionController (entries : List RankEntry) (c : Int) : List RankEntry :=
  List.insertionSort keyOrder (entries.filter (fun e => e.color == c))

/-- The spec's partition example: ranks {0, 2} supply color 0, ranks {1, 3}
supply color 1; the keys invert the rank order inside each color. -/
def demoEntries : List RankEntry :=
  [⟨0, 0, 5⟩, ⟨1, 1, 1⟩, ⟨2, 0, 3⟩, ⟨3, 1, 2⟩]

end Partition

namespace InfoVector

/-- A `vtkInformation` instance as seen by the vector: either a freshly
created empty instance or some pre-existing object, identified by a key. -/
inductive Info where
  | empty
  | obj (id : Nat)
deriving DecidableEq, Repr

/-- The observable state of a `vtkInformationVector`: its stored
`vtkInformation` instances in index order. -/
structure InformationVector where
  objects : List Info
deriving DecidableEq, Repr

/-- Embedded from vtkInformationVector.h:
`return this->NumberOfInformationObjects`. -/
def GetNumberOfInformationObjects (v : InformationVector) : Nat :=
  v.objects.length

/-- Modelled from the spec: `SetNumberOfInformationObjects` (declared in
vtkInformationVector.h, implementation outside the given sources): "Setting
the number to larger than the current number will create empty
vtkInformation instances.  Setting the number to smaller than the current
number will remove entries from higher indices." -/
def SetNumberOfInformationObjects (n : Nat) (v : InformationVector) :
    InformationVector :=
  if n ≤ v.objects.length then ⟨v.objects.take n⟩
  else ⟨v.objects ++ List.replicate (n - v.objects.length) Info.empty⟩

end InfoVector

namespace AreaPicker

/-- An assembly path as `AreaPick` uses one: the view props at its first and
last nodes. -/
structure AssemblyPath where
  firstNode : Nat
  lastNode : Nat
deriving DecidableEq, Repr

/-- The concrete mapper classes the picked prop is deciphered into by the
SafeDownCast chain of `AreaPick`: vtkMapper, vtkAbstractVolumeMapper,
vtkImageMapper3D, or none of these. -/
inductive MapperKind where
  | mapper
  | volumeMapper
  | imageMapper
  | other
deriving DecidableEq, Repr

/-- A mapper: its concrete kind and its input dataset
(GetInput / GetDataSetInput), if any. -/
structure Mapper where
  kind : MapperKind
  input : Option Nat
deriving DecidableEq, Repr

/-- The collaborators `AreaPick` calls out to: the renderer's hardware pick
`PickPropFrom`, the renderer's pick-result props with their assembly paths
(`GetPickResultProps` with path traversal), and the picker's `TypeDecipher`
virtual, giving a view prop's pickable flag and mapper. -/
structure PickEnv where
  pickPropFrom : ℚ → ℚ → ℚ → ℚ → Option (List Nat) → Option AssemblyPath
  pickResultProps : List (Nat × List AssemblyPath)
  typeDecipher : Nat → Nat × Option Mapper

/-- The picker state `AreaPick` reads and writes: the fields of the picker
base classes that the function touches. -/
structure PickerState where
  selectionPoint : ℚ × ℚ × ℚ
  path : Option AssemblyPath
  mapper : Option Mapper
  dataSet : Option Nat
  prop3Ds : List Nat
  pickFromList : Bool
  pickList : List Nat

/-- Modelled from the spec: `this->Initialize()` of the picker base classes
(outside the given sources) resets the pick-result state — selection point,
path, mapper, dataset and the collected Prop3Ds — and leaves the PickFromList
configuration alone. -/
def InitializePicker (s : PickerState) : PickerState :=
  { s with selectionPoint := (0, 0, 0), path := none, mapper := none,
           dataSet := none, prop3Ds := [] }

/-- Embedded from vtkRenderedAreaPicker.cxx: the loop over one pick-result
prop's assembly paths: when a path's last view prop deciphers as pickable and
the prop is not yet in Prop3Ds, the prop is appended. -/
def collectProp3Ds (td : Nat → Nat × Option Mapper) (acc : List Nat)
    (propId : Nat) (paths : List AssemblyPath) : List Nat :=
  paths.foldl
    (fun acc2 path =>
      if (td path.lastNode).1 ≠ 0 ∧ propId ∉ acc2 then acc2 ++ [propId] else acc2)
    acc

/-- Embedded from vtkRenderedAreaPicker.cxx: `AreaPick(x0, y0, x1, y1)`.
It initializes the picker, sets the selection point to the rectangle's
midpoint, asks the renderer for the hardware pick over the rectangle
(restricted to the pick list when PickFromList is set), and on a hit
deciphers the picked prop's mapper and dataset and collects the pick-result
prop3Ds.  Returns `picked` (1 on a hit, 0 otherwise) with the final state. -/
def AreaPick (env : PickEnv) (s0 : PickerState) (x0 y0 x1 y1 : ℚ) :
    Nat × PickerState :=
  let s := InitializePicker s0
  let s := { s with selectionPoint := ((x0 + x1) * (1 / 2), (y0 + y1) * (1 / 2), 0) }
  let pickList : Option (List Nat) := if s.pickFromList then some s.pickList else none
  let path := env.pickPropFrom x0 y0 x1 y1 pickList
  let s := { s with path := path }
  match path with
  | none => (0, s)
  | some p =>
    let td := env.typeDecipher p.lastNode
    let s :=
      if td.1 ≠ 0 then
        match td.2 with
        | some m =>
          match m.kind with
          | .mapper => { s with mapper := some m, dataSet := m.input }
          | .volumeMapper => { s with mapper := some m, dataSet := m.input }
          | .imageMapper => { s with mapper := some m, dataSet := m.input }
          | .other => { s with mapper := some m, dataSet := none }
        | none => s
      else s
    let s := { s with
      prop3Ds := env.pickResultProps.foldl
        (fun acc pp => collectProp3Ds env.typeDecipher acc pp.1 pp.2) s.prop3Ds }
    (1, s)

end AreaPicker

/-- C1: FIFO ordering per (source, dest, tag) triple: in every reachable
transport state, the receive log of a triple is exactly an initial segment of
the send log of that triple, so for two messages m1, m2 sent in that order on
the same triple the receiver receives m1 before m2.  Across different tags
there is no relative ordering guarantee: a concrete execution receives the
later-sent message of tag 1 while the earlier-sent message of tag 0 is still
undelivered. -/
theorem C1_fifo_per_triple :
    (∀ (evs : List Transport.Ev) (s : Transport.TState),
      Transport.run Transport.TState.init evs = some s →
      ∀ t : Transport.Triple,
        s.recvLog t = (s.sentLog t).take (s.recvLog t).length) ∧
    (∃ s : Transport.TState,
      Transport.run Transport.TState.init
        [Transport.Ev.send ⟨0, 1, 0⟩ 10, Transport.Ev.send ⟨0, 1, 1⟩ 20,
          Transport.Ev.recv ⟨0, 1, 1⟩] = some s ∧
      s.sentLog ⟨0, 1, 0⟩ = [10] ∧ s.sentLog ⟨0, 1, 1⟩ = [20] ∧
      s.recvLog ⟨0, 1, 1⟩ = [20] ∧ s.recvLog ⟨0, 1, 0⟩ = []) := by
  constructor
  · intro evs s hs t
    have hinv := Transport.run_queueInv Transport.init_queueInv hs
    rw [hinv t]
    rw [List.take_left]
  · refine ⟨_, rfl, ?_, ?_, ?_, ?_⟩ <;> decide

/-- Witness for C1: the FIFO conclusion evaluated on the concrete
demonstration trace. -/
theorem C1_fifo_per_triple_witness :
    Transport.fifoDemoState.recvLog ⟨0, 1, 7⟩ =
      (Transport.fifoDemoState.sentLog ⟨0, 1, 7⟩).take
        (Transport.fifoDemoState.recvLog ⟨0, 1, 7⟩).length :=
  C1_fifo_per_triple.1 Transport.fifoDemoTrace Transport.fifoDemoState rfl ⟨0, 1, 7⟩

/-- C2: RMI control traffic and user-level data traffic never match: in every
reachable controller state after Initialize the RMI communicator exists, and
for every tag value an RMI control message (travelling on the RMI
communicator's context) never matches a user-level receive on the primary
channel, nor the other way round, because the duplicated RMI communicator
carries a fresh context distinct from the primary one. -/
theorem C2_rmi_never_matches_user (ops : List MPIController.Op) (c tag : Nat)
    (hinit : (MPIController.runOps MPIController.initialCState ops).initialized = true)
    (hc : (MPIController.runOps MPIController.initialCState ops).rmiContext = some c) :
    (MPIController.runOps MPIController.initialCState ops).rmiContext.isSome = true ∧
    MPIController.envMatch ⟨c, tag⟩
      (MPIController.userEnvelope (MPIController.runOps MPIController.initialCState ops) tag) =
      false ∧
    MPIController.envMatch
      (MPIController.userEnvelope (MPIController.runOps MPIController.initialCState ops) tag)
      ⟨c, tag⟩ = false := by
  have hsome := MPIController.runOps_rmi_isSome (Or.inr rfl) ops hinit
  have hinv := MPIController.runOps_ctxInv MPIController.initial_ctxInv ops
  obtain ⟨hw, hr⟩ := hinv
  obtain ⟨hne, _⟩ := hr c hc
  refine ⟨hsome, ?_, ?_⟩ <;>
    simp [MPIController.envMatch, MPIController.userEnvelope, hne, Ne.symm hne]

/-- Witness for C2: one Initialize from the initial state gives the RMI
communicator context 1 while the primary channel keeps context 0; with the
same tag 42 on both, neither direction matches. -/
theorem C2_rmi_never_matches_user_witness :
    (MPIController.runOps MPIController.initialCState
        [MPIController.Op.init false]).rmiContext.isSome = true ∧
    MPIController.envMatch ⟨1, 42⟩
      (MPIController.userEnvelope
        (MPIController.runOps MPIController.initialCState [MPIController.Op.init false]) 42) =
      false ∧
    MPIController.envMatch
      (MPIController.userEnvelope
        (MPIController.runOps MPIController.initialCState [MPIController.Op.init false]) 42)
      ⟨1, 42⟩ = false :=
  C2_rmi_never_matches_user [MPIController.Op.init false] 1 42 rfl rfl

/-- C3: Initialize is idempotent: after one Initialize, a second call (with
either flag) leaves the controller state unchanged; and from an uninitialized
state, an externally-owned Initialize skips the low-level transport start-up
(`mpiStarted` unchanged) but still derives the private RMI communicator,
while a non-externally-owned Initialize starts the transport. -/
theorem C3_initialize_idempotent (s : MPIController.CState) (b b2 : Bool) :
    MPIController.Initialize b2 (MPIController.Initialize b s) =
      MPIController.Initialize b s ∧
    (s.initialized = false →
      (MPIController.Initialize true s).mpiStarted = s.mpiStarted ∧
      (MPIController.Initialize true s).rmiContext = some s.nextContext ∧
      (MPIController.Initialize false s).mpiStarted = true ∧
      (MPIController.Initialize true s).initialized = true ∧
      (MPIController.Initialize false s).initialized = true) := by
  constructor
  · by_cases hi : s.initialized <;> simp [MPIController.Initialize_eq, hi]
  · intro hi
    simp [MPIController.Initialize_eq, hi]

/-- Witness for C3: idempotence and the externally-owned behaviour evaluated
at the initial state. -/
theorem C3_initialize_idempotent_witness :
    MPIController.Initialize true (MPIController.Initialize false MPIController.initialCState) =
      MPIController.Initialize false MPIController.initialCState ∧
    (MPIController.Initialize true MPIController.initialCState).mpiStarted =
      MPIController.initialCState.mpiStarted :=
  ⟨(C3_initialize_idempotent MPIController.initialCState false true).1,
   ((C3_initialize_idempotent MPIController.initialCState false true).2 rfl).1⟩

/-- C8: the synchronous-delivery flag for RMI control traffic defaults to
asynchronous: GetUseSsendForRMI is 0 in the initial state; after
SetUseSsendForRMI(x) it reads 1 when x is nonzero and 0 when x is zero; and
TriggerRMIInternal uses synchronous Ssend exactly when the flag is 1,
ordinary Send otherwise. -/
theorem C8_ssend_flag_behaviour (s : MPIController.CState) (x : Int) (tag : Nat) :
    MPIController.GetUseSsendForRMI MPIController.initialCState = 0 ∧
    MPIController.GetUseSsendForRMI (MPIController.SetUseSsendForRMI x s) =
      (if x ≠ 0 then 1 else 0) ∧
    (s.useSsendForRMI = 1 →
      (MPIController.TriggerRMIInternal s tag).1 = MPIController.SendKind.ssend) ∧
    (s.useSsendForRMI ≠ 1 →
      (MPIController.TriggerRMIInternal s tag).1 = MPIController.SendKind.send) := by
  refine ⟨rfl, rfl, ?_, ?_⟩ <;> intro h <;> simp [MPIController.TriggerRMIInternal, h]

/-- Witness for C8: the default is 0; setting the flag with 5 makes
TriggerRMIInternal use Ssend, and with the default it uses Send. -/
theorem C8_ssend_flag_behaviour_witness :
    MPIController.GetUseSsendForRMI MPIController.initialCState = 0 ∧
    (MPIController.TriggerRMIInternal
        (MPIController.SetUseSsendForRMI 5 MPIController.initialCState) 3).1 =
      MPIController.SendKind.ssend ∧
    (MPIController.TriggerRMIInternal MPIController.initialCState 3).1 =
      MPIController.SendKind.send :=
  ⟨(C8_ssend_flag_behaviour MPIController.initialCState 5 3).1,
   (C8_ssend_flag_behaviour
      (MPIController.SetUseSsendForRMI 5 MPIController.initialCState) 5 3).2.2.1 (by decide),
   (C8_ssend_flag_behaviour MPIController.initialCState 5 3).2.2.2 (by decide)⟩

/-- C4: WaitAll returns only in a state where every handle in the set reports
COMPLETE via TestAll (for handles that can complete, i.e. not cancelled);
before all are complete TestAll returns false; and TestAll is idempotent:
run on its own output it returns true again and it never changes any
handle's state. -/
theorem C4_waitall_testall (now : Nat) (reqs : List Requests.Request) :
    ((∀ r ∈ reqs, r.cancelled = false) →
      (Requests.TestAll (Requests.WaitAll now reqs) reqs).1 = true) ∧
    ((∃ r ∈ reqs, Requests.status now r ≠ Requests.ReqStatus.COMPLETE) →
      (Requests.TestAll now reqs).1 = false) ∧
    ((Requests.TestAll now reqs).2 = reqs ∧
      ((Requests.TestAll now reqs).1 = true →
        (Requests.TestAll now (Requests.TestAll now reqs).2).1 = true)) := by
  refine ⟨?_, ?_, rfl, ?_⟩
  · intro hnc
    simp only [Requests.TestAll, List.all_eq_true, decide_eq_true_eq]
    intro r hr
    have hle : r.completeAt ≤ Requests.WaitAll now reqs := Requests.mem_le_waitAll hr
    simp [Requests.status, hnc r hr, hle]
  · rintro ⟨r, hr, hst⟩
    simp only [Requests.TestAll]
    rw [Bool.eq_false_iff]
    intro hall
    rw [List.all_eq_true] at hall
    exact hst (of_decide_eq_true (hall r hr))
  · intro h
    simpa [Requests.TestAll] using h

/-- Witness for C4: two pending uncancelled requests completing at times 2
and 5, queried at time 0: TestAll is false before WaitAll and true after,
and TestAll leaves the set unchanged. -/
theorem C4_waitall_testall_witness :
    (Requests.TestAll (Requests.WaitAll 0 [⟨2, false⟩, ⟨5, false⟩]) [⟨2, false⟩, ⟨5, false⟩]).1 =
      true ∧
    (Requests.TestAll 0 [⟨2, false⟩, ⟨5, false⟩]).1 = false ∧
    (Requests.TestAll 0 [⟨2, false⟩, ⟨5, false⟩]).2 = [⟨2, false⟩, ⟨5, false⟩] :=
  ⟨(C4_waitall_testall 0 [⟨2, false⟩, ⟨5, false⟩]).1 (by decide),
   (C4_waitall_testall 0 [⟨2, false⟩, ⟨5, false⟩]).2.1 ⟨⟨2, false⟩, by decide⟩,
   (C4_waitall_testall 0 [⟨2, false⟩, ⟨5, false⟩]).2.2.1⟩

/-- C6: WaitAny's tie-break is deterministic: its answer depends only on the
completion state of the request set (two runs from the same completion state
return the same index, here the first complete one in polling order), and the
returned index always refers to a completed request. -/
theorem C6_waitany_deterministic (now now2 : Nat)
    (reqs reqs2 : List Requests.Request) (i : Nat) :
    (Requests.completionVector now reqs = Requests.completionVector now2 reqs2 →
      Requests.WaitAny now reqs = Requests.WaitAny now2 reqs2) ∧
    (Requests.WaitAny now reqs = some i →
      ∃ r, reqs[i]? = some r ∧ Requests.status now r = Requests.ReqStatus.COMPLETE) := by
  constructor
  · intro h
    exact Requests.firstCompleteIdx_congr h
  · intro h
    exact Requests.firstCompleteIdx_sound h

/-- Witness for C6: two orders of the same completion pattern (complete at
index 1 and 2 of three requests, queried at times 3 and 7) give the same
index, and that index holds a completed request. -/
theorem C6_waitany_deterministic_witness :
    Requests.WaitAny 3 [⟨9, false⟩, ⟨1, false⟩, ⟨2, false⟩] =
      Requests.WaitAny 7 [⟨8, false⟩, ⟨6, false⟩, ⟨0, false⟩] ∧
    ∃ r, [(⟨9, false⟩ : Requests.Request), ⟨1, false⟩, ⟨2, false⟩][1]? = some r ∧
      Requests.status 3 r = Requests.ReqStatus.COMPLETE :=
  ⟨(C6_waitany_deterministic 3 7 [⟨9, false⟩, ⟨1, false⟩, ⟨2, false⟩]
      [⟨8, false⟩, ⟨6, false⟩, ⟨0, false⟩] 1).1 (by decide),
   (C6_waitany_deterministic 3 7 [⟨9, false⟩, ⟨1, false⟩, ⟨2, false⟩]
      [⟨8, false⟩, ⟨6, false⟩, ⟨0, false⟩] 1).2 (by decide)⟩

/-- C5: PartitionController groups exactly the ranks supplying color `c` into
the sub-controller for `c`, orders each sub-controller by ascending key with
ties broken by original rank, keeps distinct colors disjoint, and on the
spec's example (ranks {0,2} color 0, ranks {1,3} color 1) produces two
sub-controllers of size 2 each, ordered by key inside each color. -/
theorem C5_partition_controller (entries : List Partition.RankEntry)
    (c c2 : Int) (e : Partition.RankEntry) :
    (e ∈ Partition.PartitionController entries c ↔ e ∈ entries ∧ e.color = c) ∧
    List.Sorted Partition.keyOrder (Partition.PartitionController entries c) ∧
    (c ≠ c2 → e ∈ Partition.PartitionController entries c →
      e ∉ Partition.PartitionController entries c2) ∧
    (Partition.PartitionController Partition.demoEntries 0).map Partition.RankEntry.rank =
      [2, 0] ∧
    (Partition.PartitionController Partition.demoEntries 1).map Partition.RankEntry.rank =
      [1, 3] ∧
    (Partition.PartitionController Partition.demoEntries 0).length = 2 ∧
    (Partition.PartitionController Partition.demoEntries 1).length = 2 := by
  have hmem : ∀ c3 : Int, ∀ x : Partition.RankEntry,
      x ∈ Partition.PartitionController entries c3 ↔ x ∈ entries ∧ x.color = c3 := by
    intro c3 x
    simp [Partition.PartitionController, List.mem_insertionSort, List.mem_filter]
  refine ⟨hmem c e, ?_, ?_, by decide, by decide, by decide, by decide⟩
  · exact List.sorted_insertionSort Partition.keyOrder _
  · intro hne h1 h2
    obtain ⟨_, hc1⟩ := (hmem c e).mp h1
    obtain ⟨_, hc2⟩ := (hmem c2 e).mp h2
    exact hne (hc1 ▸ hc2)

/-- Witness for C5: on the example, the entry of rank 2 with color 0 is in
the color-0 sub-controller and not in the color-1 sub-controller, and the
color-0 sub-controller lists rank 2 (key 3) before rank 0 (key 5). -/
theorem C5_partition_controller_witness :
    (⟨2, 0, 3⟩ : Partition.RankEntry) ∉
      Partition.PartitionController Partition.demoEntries 1 ∧
    (Partition.PartitionController Partition.demoEntries 0).map Partition.RankEntry.rank =
      [2, 0] :=
  ⟨(C5_partition_controller Partition.demoEntries 0 1 ⟨2, 0, 3⟩).2.2.1 (by decide)
      ((C5_partition_controller Partition.demoEntries 0 1 ⟨2, 0, 3⟩).1.mpr (by decide)),
   (C5_partition_controller Partition.demoEntries 0 1 ⟨2, 0, 3⟩).2.2.2.1⟩

/-- C9: after SetNumberOfInformationObjects(n), the count reads n; entries at
indices below both n and the old count are unchanged; when n is larger than
the old count the new indices hold freshly created empty instances; and when
n is at most the old count the vector is exactly the old one truncated to its
first n entries. -/
theorem C9_set_number_of_information_objects
    (v : InfoVector.InformationVector) (n : Nat) :
    InfoVector.GetNumberOfInformationObjects
      (InfoVector.SetNumberOfInformationObjects n v) = n ∧
    (∀ i, i < n → i < v.objects.length →
      (InfoVector.SetNumberOfInformationObjects n v).objects[i]? = v.objects[i]?) ∧
    (∀ i, v.objects.length ≤ i → i < n →
      (InfoVector.SetNumberOfInformationObjects n v).objects[i]? =
        some InfoVector.Info.empty) ∧
    (n ≤ v.objects.length →
      (InfoVector.SetNumberOfInformationObjects n v).objects = v.objects.take n) := by
  refine ⟨?_, ?_, ?_, ?_⟩
  · by_cases h : n ≤ v.objects.length
    · simp [InfoVector.SetNumberOfInformationObjects,
        InfoVector.GetNumberOfInformationObjects, h]
    · simp [InfoVector.SetNumberOfInformationObjects,
        InfoVector.GetNumberOfInformationObjects, h]
      omega
  · intro i hin hilen
    by_cases h : n ≤ v.objects.length
    · simp [InfoVector.SetNumberOfInformationObjects, h,
        List.getElem?_take_of_lt hin]
    · simp [InfoVector.SetNumberOfInformationObjects, h,
        List.getElem?_append_left hilen]
  · intro i hlen hin
    have h : ¬n ≤ v.objects.length := by omega
    simp [InfoVector.SetNumberOfInformationObjects, h,
      List.getElem?_append_right hlen, List.getElem?_replicate]
    omega
  · intro h
    simp [InfoVector.SetNumberOfInformationObjects, h]

/-- Witness for C9: growing a 2-element vector to 4 keeps the old entries,
fills the new indices with empty instances, and shrinking to 1 truncates. -/
theorem C9_set_number_of_information_objects_witness :
    InfoVector.GetNumberOfInformationObjects
      (InfoVector.SetNumberOfInformationObjects 4 ⟨[.obj 8, .obj 9]⟩) = 4 ∧
    (InfoVector.SetNumberOfInformationObjects 4 ⟨[.obj 8, .obj 9]⟩).objects[1]? =
      some (InfoVector.Info.obj 9) ∧
    (InfoVector.SetNumberOfInformationObjects 4 ⟨[.obj 8, .obj 9]⟩).objects[3]? =
      some InfoVector.Info.empty ∧
    (InfoVector.SetNumberOfInformationObjects 1 ⟨[.obj 8, .obj 9]⟩).objects =
      [InfoVector.Info.obj 8] :=
  ⟨(C9_set_number_of_information_objects ⟨[.obj 8, .obj 9]⟩ 4).1,
   (C9_set_number_of_information_objects ⟨[.obj 8, .obj 9]⟩ 4).2.1 1
      (by decide) (by decide),
   (C9_set_number_of_information_objects ⟨[.obj 8, .obj 9]⟩ 4).2.2.1 3
      (by decide) (by decide),
   (C9_set_number_of_information_objects ⟨[.obj 8, .obj 9]⟩ 1).2.2.2 (by decide)⟩

/-- C10: AreaPick returns 1 exactly when the renderer's prop pick over the
rectangle produced a non-null assembly path, 0 otherwise; and in every call,
whatever the pick outcome, the final SelectionPoint is the rectangle's
midpoint ((x0+x1)*0.5, (y0+y1)*0.5, 0). -/
theorem C10_area_pick (env : AreaPicker.PickEnv) (s : AreaPicker.PickerState)
    (x0 y0 x1 y1 : ℚ) :
    ((AreaPicker.AreaPick env s x0 y0 x1 y1).1 = 1 ↔
      (env.pickPropFrom x0 y0 x1 y1
        (if s.pickFromList then some s.pickList else none)).isSome = true) ∧
    ((AreaPicker.AreaPick env s x0 y0 x1 y1).1 = 0 ↔
      env.pickPropFrom x0 y0 x1 y1
        (if s.pickFromList then some s.pickList else none) = none) ∧
    (AreaPicker.AreaPick env s x0 y0 x1 y1).2.selectionPoint =
      ((x0 + x1) * (1 / 2), (y0 + y1) * (1 / 2), 0) := by
  unfold AreaPicker.AreaPick
  cases hp : env.pickPropFrom x0 y0 x1 y1
      (if s.pickFromList then some s.pickList else none) with
  | none => simp [AreaPicker.InitializePicker, hp]
  | some p =>
    rcases htd : env.typeDecipher p.lastNode with ⟨pickable, mo⟩
    by_cases hpk : pickable ≠ 0
    · cases mo with
      | none => simp [AreaPicker.InitializePicker, hp, htd, hpk]
      | some m =>
        cases m with
        | mk k inp => cases k <;> simp [AreaPicker.InitializePicker, hp, htd, hpk]
    · simp [AreaPicker.InitializePicker, hp, htd, hpk]

/-- C7: a blocking Receive into a buffer of capacity `maxLength` fails when
the incoming message is longer than `maxLength` (truncation is an error, never
silently accepted) and on that failure no buffer contents are guaranteed;
when the message fits, the receive succeeds and delivers it. -/
theorem C7_receive_truncation_is_error (msg : List Nat) (maxLength : Nat) :
    (maxLength < msg.length → Channel.Receive msg maxLength = (0, none)) ∧
    (msg.length ≤ maxLength → Channel.Receive msg maxLength = (1, some msg)) := by
  constructor
  · intro h
    simp [Channel.Receive, h]
  · intro h
    simp [Channel.Receive, Nat.not_lt.mpr h]

/-- Witness for C7: a 3-element message into a 2-element buffer fails; the
same message into a 3-element buffer succeeds. -/
theorem C7_receive_truncation_is_error_witness :
    Channel.Receive [1, 2, 3] 2 = (0, none) ∧
    Channel.Receive [1, 2, 3] 3 = (1, some [1, 2, 3]) :=
  ⟨(C7_receive_truncation_is_error [1, 2, 3] 2).1 (by decide),
   (C7_receive_truncation_is_error [1, 2, 3] 3).2 (by decide)⟩

end VTKSpec
